import Mathlib

/-!
# Thunderpad: the multi-window session logic of `src/window/window.cpp`

A shallow embedding of the `Window` class: every member function of
`window.cpp` that the properties below talk about is a Lean function over an
explicit application state.

* Window objects live in a heap indexed by handles (`Nat`, the pointer
  identity of the C++ object); `topLevelWidgets` lists the handles of the
  windows that are constructed and not yet destroyed.
* `QSettings` objects created with the same company and application name share
  one store inside a process, so the state holds a single store.
* A signal-to-signal `connect` is an entry of a list of links; Qt delivers a
  signal once per connection, duplicates included, so the list is a multiset.
* `Q_ASSERT` is modelled as checked: a failing assertion stops the call and
  the outcome records the state in which it failed.
* Coordinates are integers; the one addition of the source, the cascade offset
  of `configureWindow`, is the addition of `int`, which wraps at 32 bits.
* The `Editor` class is not part of `window.cpp`; its member functions are
  parameters of the model, and the signals an editor emits on its own (after a
  load, after an edit) are outside the calls modelled here.
-/

namespace Thunderpad

/-! ## Toolkit values -/

structure QSize where
  width : Int
  height : Int
deriving DecidableEq, Repr

structure QPoint where
  x : Int
  y : Int
deriving DecidableEq, Repr

/-- The values the program stores in the settings store. -/
inductive QVariant where
  | bool (b : Bool)
  | size (s : QSize)
  | point (p : QPoint)
  | string (s : String)
deriving DecidableEq, Repr

/-- Conversion `QVariant::toSize`: an invalid size when the variant holds no size. -/
def QVariant.toSize : QVariant → QSize
  | .size s => s
  | _ => ⟨-1, -1⟩

/-- Conversion `QVariant::toPoint`: the null point when the variant holds no point. -/
def QVariant.toPoint : QVariant → QPoint
  | .point p => p
  | _ => ⟨0, 0⟩

/-- Conversion `QVariant::toBool`: a string is true unless it is empty, "0" or
"false" (case-insensitively); sizes and points are not convertible. -/
def QVariant.toBool : QVariant → Bool
  | .bool b => b
  | .string s => !(s.toLower = "" || s.toLower = "0" || s.toLower = "false")
  | _ => false

/-- The process-wide settings store: key to stored value. -/
abbrev QSettings := String → Option QVariant

/-- The call `m_settings->setValue(key, v)`. -/
def QSettings.setValue (st : QSettings) (key : String) (v : QVariant) : QSettings :=
  fun k => if k = key then some v else st k

/-- The call `m_settings->value(key, dflt)`: the default only when the key is absent. -/
def QSettings.value (st : QSettings) (key : String) (dflt : QVariant) : QVariant :=
  (st key).getD dflt

/-- Addition of two `int` values: 32 bits, two's complement, wrapping. -/
def intAdd (a b : Int) : Int :=
  (a + b + 2147483648) % 4294967296 - 2147483648

/-- The largest widget extent of the toolkit, the default maximum size. -/
def QWIDGETSIZE_MAX : Int := 16777215

/-- Function `QObject::tr` with no translation catalogue installed: the source text. -/
def tr (s : String) : String := s

/-- Function `QFileInfo(file).fileName()`: the text after the last `/` of the path. -/
def QFileInfo.fileName (file : String) : String :=
  String.mk (file.data.reverse.takeWhile (fun c => c ≠ '/')).reverse

/-! ## The collaborators of a window -/

/-- The part of the `Editor` collaborator the window reads and commands. -/
structure Editor where
  documentTitle : String
  modified : Bool
  readOnly : Bool
  text : String
deriving DecidableEq, Repr

structure MenuBar where
  saveEnabled : Bool
deriving DecidableEq, Repr

structure ToolBar where
  saveEnabled : Bool
deriving DecidableEq, Repr

/-- What `window.cpp` uses and does not define: the application name macro and
the `Editor` member functions. `maybeSave` returns whether it is safe to
proceed, together with the editor as the confirmation dialog left it (the
dialog may save the document). -/
structure Env where
  APP_NAME : String
  newEditor : Editor
  readFile : Editor → String → Editor
  maybeSave : Editor → Bool × Editor

/-- The fields of a `Window` object. -/
structure Window where
  objectName : String
  deleteOnClose : Bool
  editor : Editor
  menu : MenuBar
  toolbar : ToolBar
  windowTitle : String
  minimumSize : QSize
  maximumSize : QSize
  size : QSize
  pos : QPoint
  maximized : Bool
deriving DecidableEq, Repr

/-- A widget object before `Window::Window` has run its body: the toolkit's
defaults; every field but the maximum size is assigned by the constructor. -/
def Window.blank (env : Env) : Window :=
  { objectName := ""
    deleteOnClose := false
    editor := env.newEditor
    menu := ⟨true⟩
    toolbar := ⟨true⟩
    windowTitle := ""
    minimumSize := ⟨0, 0⟩
    maximumSize := ⟨QWIDGETSIZE_MAX, QWIDGETSIZE_MAX⟩
    size := ⟨640, 480⟩
    pos := ⟨0, 0⟩
    maximized := false }

/-- The state of the application. -/
structure AppState where
  /-- The window objects, by handle. -/
  heap : Nat → Window
  /-- The next handle `new Window()` returns. -/
  nextId : Nat
  /-- The list `QApplication::topLevelWidgets()`: handles of the live windows. -/
  topLevelWidgets : List Nat
  /-- The shared settings store. -/
  settings : QSettings
  /-- A pair `(a, b)` is one connection from the `settingsChanged` signal of `a`
  to the `updateSettings` signal of `b`. -/
  settingsLinks : List (Nat × Nat)
  /-- A pair `(a, b)` is one connection from `checkForUpdates` of `a` to that of `b`. -/
  updateLinks : List (Nat × Nat)
  /-- The handles whose `updateSettings` signal was emitted, oldest first. -/
  emitted : List Nat

/-- The result of a member function that contains a `Q_ASSERT`. -/
inductive Outcome (α : Type) where
  | ok (a : α)
  | assertFailed (s : AppState)

/-- Sequencing: a failed assertion stops the call. -/
def Outcome.bind {α β : Type} (o : Outcome α) (f : α → Outcome β) : Outcome β :=
  match o with
  | .ok a => f a
  | .assertFailed s => .assertFailed s

/-- Apply `f` to the window object behind handle `this`. -/
def AppState.modify (s : AppState) (this : Nat) (f : Window → Window) : AppState :=
  { s with heap := fun i => if i = this then f (s.heap i) else s.heap i }

/-- The call `resize(sz)` of the toolkit: the size is brought into the range
between the minimum and the maximum size of the widget. -/
def Window.resize (w : Window) (sz : QSize) : Window :=
  { w with size := ⟨max (min sz.width w.maximumSize.width) w.minimumSize.width,
                    max (min sz.height w.maximumSize.height) w.minimumSize.height⟩ }

/-- The call `move(x, y)` of the toolkit. -/
def Window.move (w : Window) (x y : Int) : Window :=
  { w with pos := ⟨x, y⟩ }

/-! ## Member functions of `Window` -/

/-- Member `Window::shortFileName`. -/
def shortFileName (file : String) (s : AppState) : Outcome String :=
  if file = "" then .assertFailed s
  else .ok (QFileInfo.fileName file)

/-- Member `Window::updateTitle`. -/
def updateTitle (env : Env) (this : Nat) (s : AppState) : Outcome AppState :=
  let m_editor := (s.heap this).editor
  (if m_editor.documentTitle = "" then Outcome.ok (tr "Untitled")
   else shortFileName m_editor.documentTitle s).bind fun _title =>
  let s1 :=
    if m_editor.modified then
      s.modify this fun w => { w with windowTitle := _title ++ "* - " ++ env.APP_NAME }
    else
      s.modify this fun w => { w with windowTitle := _title ++ " - " ++ env.APP_NAME }
  if ¬ m_editor.documentTitle = "" ∧ ¬ m_editor.modified = true then
    .ok (s1.modify this fun w => { w with menu := ⟨false⟩, toolbar := ⟨false⟩ })
  else
    .ok (s1.modify this fun w => { w with menu := ⟨true⟩, toolbar := ⟨true⟩ })

/-- The constructor `Window::Window`, run by `new Window()`: the outcome holds
the new state and the handle of the new window. -/
def Window.new (env : Env) (s : AppState) : Outcome (AppState × Nat) :=
  let this := s.nextId
  let s0 : AppState :=
    { s with
      heap := fun i => if i = this then Window.blank env else s.heap i
      nextId := s.nextId + 1
      topLevelWidgets := s.topLevelWidgets ++ [this] }
  let s1 := s0.modify this fun w => { w with objectName := "window", deleteOnClose := true }
  (updateTitle env this s1).bind fun s2 =>
  let s3 : AppState := { s2 with emitted := s2.emitted ++ [this] }
  let s4 := s3.modify this fun w => { w with minimumSize := ⟨420, 420⟩ }
  let s5 := s4.modify this fun w =>
    w.resize (s4.settings.value "size" (.size ⟨640, 420⟩)).toSize
  let s6 := s5.modify this fun w =>
    let p := (s5.settings.value "position" (.point ⟨200, 200⟩)).toPoint
    w.move p.x p.y
  let s7 := s6.modify this fun w =>
    { w with maximized := (s6.settings.value "maximized" (.bool false)).toBool }
  .ok (s7, this)

/-- Member `Window::closeEvent`: the new state and whether the event was accepted. -/
def closeEvent (env : Env) (this : Nat) (s : AppState) : AppState × Bool :=
  let s1 : AppState :=
    { s with settings := s.settings.setValue "size" (.size (s.heap this).size) }
  let s2 : AppState :=
    { s1 with settings := s1.settings.setValue "position" (.point (s1.heap this).pos) }
  let r := env.maybeSave (s2.heap this).editor
  (s2.modify this fun w => { w with editor := r.2 }, r.1)

/-- The toolkit's `QWidget::close`: deliver the close event; an accepted event
closes the window, and a window with the delete-on-close attribute is destroyed,
which removes it from the top-level widgets and drops its connections. -/
def close (env : Env) (this : Nat) (s : AppState) : AppState :=
  let r := closeEvent env this s
  if r.2 = true ∧ (r.1.heap this).deleteOnClose = true then
    { r.1 with
      topLevelWidgets := r.1.topLevelWidgets.filter fun i => i ≠ this
      settingsLinks := r.1.settingsLinks.filter fun p => p.1 ≠ this ∧ p.2 ≠ this
      updateLinks := r.1.updateLinks.filter fun p => p.1 ≠ this ∧ p.2 ≠ this }
  else r.1

/-- Member `Window::saveWindowState`. -/
def saveWindowState (this : Nat) (s : AppState) : AppState :=
  let s1 : AppState :=
    { s with settings := s.settings.setValue "maximized" (.bool (s.heap this).maximized) }
  if ¬ (s1.heap this).maximized = true then
    let s2 : AppState :=
      { s1 with settings := s1.settings.setValue "size" (.size (s1.heap this).size) }
    { s2 with settings := s2.settings.setValue "position" (.point (s2.heap this).pos) }
  else s1

/-- One round of the `foreach` loop of `Window::configureWindow`. -/
def connectWidget (window : Nat) (s : AppState) (_widget : Nat) : AppState :=
  if (s.heap _widget).objectName = "window" then
    { s with settingsLinks := s.settingsLinks ++ [(_widget, window), (window, _widget)] }
  else s

/-- Member `Window::configureWindow`; the argument is a pointer, `none` is `NULL`. -/
def configureWindow (this : Nat) (window : Option Nat) (s : AppState) : Outcome AppState :=
  match window with
  | none => .assertFailed s
  | some window =>
    let s1 := saveWindowState window s
    let s2 : AppState := { s1 with updateLinks := s1.updateLinks ++ [(window, this)] }
    let s3 := s2.topLevelWidgets.foldl (connectWidget window) s2
    let s4 := s3.modify window fun w => w.resize (s3.heap this).size
    let s5 := s4.modify window fun w => w.move (intAdd (s4.heap window).pos.x 45)
      (intAdd (s4.heap window).pos.y 45)
    .ok { s5 with
          settings := s5.settings.setValue "position"
            (.point ⟨(s5.heap window).pos.x, (s5.heap window).pos.y⟩) }

/-- Member `Window::openFile`. -/
def openFile (env : Env) (this : Nat) (file_name : String) (s : AppState) :
    Outcome AppState :=
  if file_name = "" then .assertFailed s
  else if (s.heap this).editor.documentTitle = "" ∧ ¬ (s.heap this).editor.modified = true then
    .ok (s.modify this fun w => { w with editor := env.readFile w.editor file_name })
  else
    (Window.new env s).bind fun r =>
    (configureWindow this (some r.2) r.1).bind fun s2 =>
    .ok (s2.modify r.2 fun w => { w with editor := env.readFile w.editor file_name })

/-- Member `Window::newFile`. -/
def newFile (env : Env) (this : Nat) (s : AppState) : Outcome AppState :=
  (Window.new env s).bind fun r => configureWindow this (some r.2) r.1

/-- Member `Window::open`, after the file dialog returned `_files`. -/
def «open» (env : Env) (this : Nat) (_files : List String) (s : AppState) :
    Outcome AppState :=
  match _files with
  | [] => .ok s
  | f :: rest =>
    if ¬ f = "" then (openFile env this f s).bind fun s1 => «open» env this rest s1
    else «open» env this rest s

/-- Member `Window::syncSettings`: the window's own `updateSettings`, then
`settingsChanged`, which every connection leaving this window forwards to the
`updateSettings` signal of its receiver. -/
def syncSettings (this : Nat) (s : AppState) : AppState :=
  let s1 : AppState := { s with emitted := s.emitted ++ [this] }
  { s1 with
    emitted := s1.emitted ++
      (s1.settingsLinks.filter fun p => p.1 = this).map fun p => p.2 }

/-- Member `Window::setWordWrap`. -/
def setWordWrap (this : Nat) (ww : Bool) (s : AppState) : AppState :=
  syncSettings this { s with settings := s.settings.setValue "wordwrap-enabled" (.bool ww) }

/-- Member `Window::setToolbarText`. -/
def setToolbarText (this : Nat) (tt : Bool) (s : AppState) : AppState :=
  syncSettings this { s with settings := s.settings.setValue "toolbar-text" (.bool tt) }

/-- Member `Window::setToolbarEnabled`. -/
def setToolbarEnabled (this : Nat) (tb : Bool) (s : AppState) : AppState :=
  syncSettings this { s with settings := s.settings.setValue "toolbar-enabled" (.bool tb) }

/-- Member `Window::setStatusBarEnabled`. -/
def setStatusBarEnabled (this : Nat) (sb : Bool) (s : AppState) : AppState :=
  syncSettings this { s with settings := s.settings.setValue "statusbar-enabled" (.bool sb) }

/-- Member `Window::setHCLineEnabled`. -/
def setHCLineEnabled (this : Nat) (hc : Bool) (s : AppState) : AppState :=
  syncSettings this { s with settings := s.settings.setValue "hc-line-enabled" (.bool hc) }

/-- Member `Window::setLineNumbersEnabled`. -/
def setLineNumbersEnabled (this : Nat) (ln : Bool) (s : AppState) : AppState :=
  syncSettings this
    { s with settings := s.settings.setValue "line-numbers-enabled" (.bool ln) }

/-- Member `Window::setColorscheme`. -/
def setColorscheme (this : Nat) (colorscheme : String) (s : AppState) : Outcome AppState :=
  if colorscheme = "" then .assertFailed s
  else .ok (syncSettings this
    { s with settings := s.settings.setValue "color-scheme" (.string colorscheme) })

/-- Member `Window::setIconTheme`. -/
def setIconTheme (this : Nat) (theme : String) (s : AppState) : Outcome AppState :=
  if theme = "" then .assertFailed s
  else .ok (syncSettings this
    { s with settings := s.settings.setValue "icon-theme" (.string theme) })

/-! ## Closed forms used by the proofs -/

/-- The window title `updateTitle` computes from an editor. -/
def titleText (env : Env) (e : Editor) : String :=
  if e.modified = true then
    (if e.documentTitle = "" then "Untitled" else QFileInfo.fileName e.documentTitle)
      ++ "* - " ++ env.APP_NAME
  else
    (if e.documentTitle = "" then "Untitled" else QFileInfo.fileName e.documentTitle)
      ++ " - " ++ env.APP_NAME

/-- The boolean `updateTitle` hands to the save actions. -/
def saveFlag (e : Editor) : Bool :=
  if ¬ e.documentTitle = "" ∧ ¬ e.modified = true then false else true

/-- The window object `Window::Window` leaves behind, given the settings store. -/
def constructed (env : Env) (st : QSettings) : Window :=
  { objectName := "window"
    deleteOnClose := true
    editor := env.newEditor
    menu := ⟨saveFlag env.newEditor⟩
    toolbar := ⟨saveFlag env.newEditor⟩
    windowTitle := titleText env env.newEditor
    minimumSize := ⟨420, 420⟩
    maximumSize := ⟨QWIDGETSIZE_MAX, QWIDGETSIZE_MAX⟩
    size := ⟨max (min (st.value "size" (.size ⟨640, 420⟩)).toSize.width QWIDGETSIZE_MAX) 420,
             max (min (st.value "size" (.size ⟨640, 420⟩)).toSize.height QWIDGETSIZE_MAX) 420⟩
    pos := ⟨(st.value "position" (.point ⟨200, 200⟩)).toPoint.x,
            (st.value "position" (.point ⟨200, 200⟩)).toPoint.y⟩
    maximized := (st.value "maximized" (.bool false)).toBool }

/-- The state `new Window()` leaves behind. -/
def afterNew (env : Env) (s : AppState) : AppState :=
  { s with
    heap := fun i => if i = s.nextId then constructed env s.settings else s.heap i
    nextId := s.nextId + 1
    topLevelWidgets := s.topLevelWidgets ++ [s.nextId]
    emitted := s.emitted ++ [s.nextId] }

/-- The connections the loop of `configureWindow` adds for the new window. -/
def newLinks (heap : Nat → Window) (window : Nat) : List Nat → List (Nat × Nat)
  | [] => []
  | g :: ws =>
    (if (heap g).objectName = "window" then [(g, window), (window, g)] else [])
      ++ newLinks heap window ws

/-- The state `configureWindow(window)` leaves behind when called on `this`. -/
def afterConfigure (this window : Nat) (s : AppState) : AppState :=
  { heap := fun i =>
      if i = window then
        ((s.heap window).resize (s.heap this).size).move
          (intAdd (s.heap window).pos.x 45) (intAdd (s.heap window).pos.y 45)
      else s.heap i
    nextId := s.nextId
    topLevelWidgets := s.topLevelWidgets
    settings := (saveWindowState window s).settings.setValue "position"
      (.point ⟨intAdd (s.heap window).pos.x 45, intAdd (s.heap window).pos.y 45⟩)
    settingsLinks := s.settingsLinks ++ newLinks s.heap window s.topLevelWidgets
    updateLinks := s.updateLinks ++ [(window, this)]
    emitted := s.emitted }

/-! ## Sessions -/

/-- The application before any window exists, over a given settings store. -/
def emptyApp (env : Env) (st : QSettings) : AppState :=
  { heap := fun _ => Window.blank env
    nextId := 0
    topLevelWidgets := []
    settings := st
    settingsLinks := []
    updateLinks := []
    emitted := [] }

/-- The session right after start-up: the first window has been constructed. -/
def initial (env : Env) (st : QSettings) : AppState :=
  match Window.new env (emptyApp env st) with
  | .ok r => r.1
  | .assertFailed s => s

/-- The sessions that window creation reaches from the single first window:
any live window may run `newFile` or `openFile` with a non-empty path, and in
between the user may change a window object (edit the document, move or resize
the window), which leaves the object name alone. No window is closed. -/
inductive Reachable (env : Env) : AppState → Prop where
  | init (st : QSettings) : Reachable env (initial env st)
  | newFile {s s' : AppState} (this : Nat) :
      Reachable env s → this ∈ s.topLevelWidgets →
      newFile env this s = .ok s' → Reachable env s'
  | openFile {s s' : AppState} (this : Nat) (path : String) :
      Reachable env s → this ∈ s.topLevelWidgets → path ≠ "" →
      openFile env this path s = .ok s' → Reachable env s'
  | user {s : AppState} (this : Nat) (f : Window → Window) :
      Reachable env s → (∀ w, (f w).objectName = w.objectName) →
      Reachable env (s.modify this f)

/-- The wiring invariant of a session. Handle 0 is the first window. -/
structure Wired (s : AppState) : Prop where
  nodup : s.topLevelWidgets.Nodup
  fresh : ∀ i ∈ s.topLevelWidgets, i < s.nextId
  started : 0 < s.nextId
  named : ∀ i ∈ s.topLevelWidgets, (s.heap i).objectName = "window"
  bound : ∀ p ∈ s.settingsLinks, p.1 < s.nextId ∧ p.2 < s.nextId
  cross : ∀ a ∈ s.topLevelWidgets, ∀ b ∈ s.topLevelWidgets, a ≠ b →
    s.settingsLinks.count (a, b) = 1
  self : ∀ a ∈ s.topLevelWidgets, s.settingsLinks.count (a, a) = if a = 0 then 0 else 2

/-- The state an outcome ends in. -/
def Outcome.state : Outcome AppState → AppState
  | .ok s => s
  | .assertFailed s => s

/-- How often the `updateSettings` signal of window `r` was emitted between
the state `before` and the later state `after`. -/
def received (before after : AppState) (r : Nat) : Nat :=
  (after.emitted.drop before.emitted.length).count r

/-- A call of one of the eight settings setters, with its argument. -/
inductive SettingCall where
  | wordWrap (ww : Bool)
  | toolbarText (tt : Bool)
  | toolbarEnabled (tb : Bool)
  | statusBarEnabled (sb : Bool)
  | hcLineEnabled (hc : Bool)
  | lineNumbersEnabled (ln : Bool)
  | colorscheme (colorscheme : String)
  | iconTheme (theme : String)

/-- The argument passes the setter's assertion: scheme and theme names are non-empty. -/
def SettingCall.valid : SettingCall → Prop
  | .colorscheme c => c ≠ ""
  | .iconTheme t => t ≠ ""
  | _ => True

/-- The settings key of the setter. -/
def SettingCall.key : SettingCall → String
  | .wordWrap _ => "wordwrap-enabled"
  | .toolbarText _ => "toolbar-text"
  | .toolbarEnabled _ => "toolbar-enabled"
  | .statusBarEnabled _ => "statusbar-enabled"
  | .hcLineEnabled _ => "hc-line-enabled"
  | .lineNumbersEnabled _ => "line-numbers-enabled"
  | .colorscheme _ => "color-scheme"
  | .iconTheme _ => "icon-theme"

/-- The value the setter is asked to store. -/
def SettingCall.stored : SettingCall → QVariant
  | .wordWrap b => .bool b
  | .toolbarText b => .bool b
  | .toolbarEnabled b => .bool b
  | .statusBarEnabled b => .bool b
  | .hcLineEnabled b => .bool b
  | .lineNumbersEnabled b => .bool b
  | .colorscheme c => .string c
  | .iconTheme t => .string t

/-- Run the member function the call names on window `this`. -/
def SettingCall.run (c : SettingCall) (this : Nat) (s : AppState) : Outcome AppState :=
  match c with
  | .wordWrap ww => .ok (setWordWrap this ww s)
  | .toolbarText tt => .ok (setToolbarText this tt s)
  | .toolbarEnabled tb => .ok (setToolbarEnabled this tb s)
  | .statusBarEnabled sb => .ok (setStatusBarEnabled this sb s)
  | .hcLineEnabled hc => .ok (setHCLineEnabled this hc s)
  | .lineNumbersEnabled ln => .ok (setLineNumbersEnabled this ln s)
  | .colorscheme c => setColorscheme this c s
  | .iconTheme t => setIconTheme this t s

/-- The reading of "open each non-empty entry": `openFile` on every entry of a
list, in list order, stopping at a failed assertion. -/
def openEach (env : Env) (this : Nat) : List String → AppState → Outcome AppState
  | [], s => .ok s
  | f :: rest, s => (openFile env this f s).bind (openEach env this rest)

/-- A sample environment: a new editor is untitled and unmodified, reading a
file titles the document with the path, and the confirmation is refused
exactly for a modified document. -/
def demoEnv : Env :=
  { APP_NAME := "Thunderpad"
    newEditor := ⟨"", false, false, ""⟩
    readFile := fun e path => { e with documentTitle := path, modified := false }
    maybeSave := fun e => (!e.modified, e) }

/-- The first window over an empty settings store. -/
def demoOne : AppState := initial demoEnv fun _ => none

/-- The first window has run `newFile` once. -/
def demoTwo : AppState := (newFile demoEnv 0 demoOne).state

/-- The first window after the user maximized it to a 1920 by 1080 screen. -/
def demoMaximized : AppState :=
  demoOne.modify 0 fun w => { w with maximized := true, size := ⟨1920, 1080⟩, pos := ⟨0, 0⟩ }

/-- The first window after the user typed into its untitled document. -/
def demoEdited : AppState :=
  demoOne.modify 0 fun w => { w with editor := { w.editor with modified := true } }

/-! ## Title and save-action derivation -/

/-- The last component of a path holds no separator, and the path is a
directory part, empty or ending in the separator, followed by that component. -/
theorem fileName_spec (t : String) :
    '/' ∉ (QFileInfo.fileName t).data ∧
    ∃ dir : List Char, t.data = dir ++ (QFileInfo.fileName t).data ∧
      (dir = [] ∨ dir.getLast? = some '/') := by
  have hsplit := List.takeWhile_append_dropWhile (fun c => decide (c ≠ '/')) t.data.reverse
  refine ⟨?_, (t.data.reverse.dropWhile (fun c => decide (c ≠ '/'))).reverse, ?_, ?_⟩
  · intro hmem
    have hmem2 : '/' ∈ t.data.reverse.takeWhile (fun c => decide (c ≠ '/')) := by
      have h3 : '/' ∈ (t.data.reverse.takeWhile (fun c => decide (c ≠ '/'))).reverse := hmem
      exact List.mem_reverse.mp h3
    have := List.mem_takeWhile_imp hmem2
    simp at this
  · have h2 := congrArg List.reverse hsplit
    rw [List.reverse_append, List.reverse_reverse] at h2
    exact h2.symm
  · rw [List.getLast?_reverse]
    cases hd : t.data.reverse.dropWhile (fun c => decide (c ≠ '/')) with
    | nil => left; rfl
    | cons c rest =>
      right
      have hne : t.data.reverse.dropWhile (fun c => decide (c ≠ '/')) ≠ [] := by
        rw [hd]; exact List.cons_ne_nil c rest
      have hhead := List.head_dropWhile_not (fun c => decide (c ≠ '/')) t.data.reverse hne
      have hc : c = '/' := by
        simp only [hd, List.head_cons] at hhead
        simpa using hhead
      rw [List.head?_cons, hc]

/-- The assertion of `shortFileName` never fails inside `updateTitle`, which
therefore returns, and changes the title and the two save actions only. -/
theorem updateTitle_eq (env : Env) (this : Nat) (s : AppState) :
    updateTitle env this s = .ok (s.modify this fun w =>
      { w with windowTitle := titleText env (s.heap this).editor
               menu := ⟨saveFlag (s.heap this).editor⟩
               toolbar := ⟨saveFlag (s.heap this).editor⟩ }) := by
  by_cases ht : (s.heap this).editor.documentTitle = "" <;>
    by_cases hm : (s.heap this).editor.modified = true <;>
    simp [updateTitle, shortFileName, Outcome.bind, AppState.modify, tr, ht, hm,
      titleText, saveFlag] <;>
    (funext i; by_cases hi : i = this <;> simp [hi])

/-- Claim C1. For every editor state, `updateTitle` returns and sets the window
title to the base name, then a star when the document is modified, then
" - " and the application name; the base name is "Untitled" for an empty
document title and the final path component of the document title otherwise
(no separator inside it, and the title is a directory part followed by it). -/
theorem updateTitle_windowTitle (env : Env) (this : Nat) (s : AppState) :
    ∃ s', updateTitle env this s = .ok s' ∧
      (s'.heap this).windowTitle =
        (if (s.heap this).editor.documentTitle = "" then "Untitled"
         else QFileInfo.fileName (s.heap this).editor.documentTitle)
        ++ (if (s.heap this).editor.modified = true then "*" else "")
        ++ " - " ++ env.APP_NAME ∧
      '/' ∉ (QFileInfo.fileName (s.heap this).editor.documentTitle).data ∧
      ∃ dir : List Char,
        (s.heap this).editor.documentTitle.data =
          dir ++ (QFileInfo.fileName (s.heap this).editor.documentTitle).data ∧
        (dir = [] ∨ dir.getLast? = some '/') := by
  have hstar : ∀ a b : String, a ++ "*" ++ " - " ++ b = a ++ "* - " ++ b := by
    intro a b
    rw [String.append_assoc a "*" " - "]
    rfl
  have hnil : ∀ a : String, a ++ "" = a := by
    intro a
    simp
  obtain ⟨hslash, hdir⟩ := fileName_spec (s.heap this).editor.documentTitle
  refine ⟨_, updateTitle_eq env this s, ?_, hslash, hdir⟩
  by_cases hm : (s.heap this).editor.modified = true
  · simp only [AppState.modify, titleText, hm, if_true, hstar]
  · have hf : (s.heap this).editor.modified = false := by simpa using hm
    simp [AppState.modify, titleText, hf]

/-- Claim C2. For every editor state, `updateTitle` returns and hands one and
the same boolean to the save action of the menu and of the toolbar, and that
boolean is false exactly when the document title is non-empty and the document
is not modified. -/
theorem updateTitle_saveEnabled (env : Env) (this : Nat) (s : AppState) :
    ∃ s' b, updateTitle env this s = .ok s' ∧
      (s'.heap this).menu.saveEnabled = b ∧
      (s'.heap this).toolbar.saveEnabled = b ∧
      (b = false ↔
        ((s.heap this).editor.documentTitle ≠ "" ∧ (s.heap this).editor.modified = false)) := by
  refine ⟨_, saveFlag (s.heap this).editor, updateTitle_eq env this s, ?_, ?_, ?_⟩
  · simp [AppState.modify]
  · simp [AppState.modify]
  · by_cases ht : (s.heap this).editor.documentTitle = "" <;>
      by_cases hm : (s.heap this).editor.modified = true <;>
      simp [saveFlag, ht, hm]

/-! ## Construction and wiring of a new window -/

/-- The constructor always returns; its effect in closed form. -/
theorem Window.new_eq (env : Env) (s : AppState) :
    Window.new env s = .ok (afterNew env s, s.nextId) := by
  unfold Window.new
  simp only [updateTitle_eq, Outcome.bind]
  simp only [AppState.modify, afterNew, constructed, Window.resize, Window.move, Window.blank,
    if_true, Outcome.ok.injEq, Prod.mk.injEq, and_true]
  congr 1
  funext i
  by_cases hi : i = s.nextId <;> simp [hi]

/-- The loop of `configureWindow` only appends connections. -/
theorem foldl_connectWidget (window : Nat) (ws : List Nat) (s : AppState) :
    ws.foldl (connectWidget window) s =
      { s with settingsLinks := s.settingsLinks ++ newLinks s.heap window ws } := by
  induction ws generalizing s with
  | nil => simp [newLinks]
  | cons g ws ih =>
    rw [List.foldl_cons, ih]
    by_cases hg : (s.heap g).objectName = "window" <;>
      simp [connectWidget, newLinks, hg]

/-- Saving the window state writes to the settings store only. -/
theorem saveWindowState_eq (this : Nat) (s : AppState) :
    saveWindowState this s = { s with settings := (saveWindowState this s).settings } := by
  unfold saveWindowState
  by_cases hm : (s.heap this).maximized = true <;> simp [hm]

/-- The effect of `configureWindow` on a non-null pointer, in closed form. -/
theorem configureWindow_eq (this window : Nat) (s : AppState) :
    configureWindow this (some window) s = .ok (afterConfigure this window s) := by
  unfold configureWindow
  simp only [foldl_connectWidget]
  rw [saveWindowState_eq]
  simp only [AppState.modify, afterConfigure, Window.resize, Window.move, if_true,
    Outcome.ok.injEq]
  congr 1
  funext i
  by_cases hi : i = window
  · subst hi
    simp
  · simp [hi]

/-- The effect of `newFile` in closed form: it always returns. -/
theorem newFile_eq (env : Env) (this : Nat) (s : AppState) :
    newFile env this s = .ok (afterConfigure this s.nextId (afterNew env s)) := by
  simp only [newFile, Window.new_eq, Outcome.bind, configureWindow_eq]

/-! ## The wiring invariant -/

/-- How often a connection occurs among those the loop adds, when every widget
it visits is a window. -/
theorem count_newLinks (heap : Nat → Window) (n a b : Nat) (ws : List Nat)
    (hnamed : ∀ g ∈ ws, (heap g).objectName = "window") :
    (newLinks heap n ws).count (a, b) =
      (if b = n then ws.count a else 0) + (if a = n then ws.count b else 0) := by
  induction ws with
  | nil => simp [newLinks]
  | cons g ws ih =>
    have hg : (heap g).objectName = "window" := hnamed g (List.mem_cons_self g ws)
    have ih2 := ih fun x hx => hnamed x (List.mem_cons_of_mem g hx)
    simp only [newLinks, hg, if_true, List.count_append, ih2, List.count_cons, List.count_nil,
      beq_iff_eq, Prod.mk.injEq]
    have hnb : (n = b) ↔ (b = n) := eq_comm
    have hna : (n = a) ↔ (a = n) := eq_comm
    simp only [hnb, hna]
    split_ifs <;> simp_all <;> omega

/-- Every connection the loop adds joins the new window and a visited widget. -/
theorem mem_newLinks (heap : Nat → Window) (n : Nat) (ws : List Nat) (p : Nat × Nat)
    (hp : p ∈ newLinks heap n ws) :
    (p.1 = n ∨ p.1 ∈ ws) ∧ (p.2 = n ∨ p.2 ∈ ws) := by
  induction ws with
  | nil => simp [newLinks] at hp
  | cons g ws ih =>
    simp only [newLinks, List.mem_append] at hp
    rcases hp with hp | hp
    · by_cases hg : (heap g).objectName = "window"
      · simp only [hg, if_true, List.mem_cons, List.mem_singleton] at hp
        rcases hp with hp | hp | hp
        · subst hp; simp
        · subst hp; simp
        · cases hp
      · simp [hg] at hp
    · have := ih hp
      rcases this with ⟨h1, h2⟩
      constructor
      · rcases h1 with h1 | h1
        · exact Or.inl h1
        · exact Or.inr (List.mem_cons_of_mem g h1)
      · rcases h2 with h2 | h2
        · exact Or.inl h2
        · exact Or.inr (List.mem_cons_of_mem g h2)

/-- The first session in closed form. -/
theorem initial_eq (env : Env) (st : QSettings) :
    initial env st = afterNew env (emptyApp env st) := by
  simp [initial, Window.new_eq]

/-- The first session is wired: one window, no connection. -/
theorem wired_initial (env : Env) (st : QSettings) : Wired (initial env st) := by
  rw [initial_eq]
  refine ⟨?_, ?_, ?_, ?_, ?_, ?_, ?_⟩ <;>
    simp [afterNew, emptyApp, constructed]

/-- A change of a window object that keeps its name keeps the wiring. -/
theorem wired_modify (s : AppState) (this : Nat) (f : Window → Window)
    (hf : ∀ w, (f w).objectName = w.objectName) (h : Wired s) : Wired (s.modify this f) := by
  refine ⟨h.nodup, h.fresh, h.started, ?_, h.bound, h.cross, h.self⟩
  intro i hi
  have hn : (s.heap i).objectName = "window" := h.named i hi
  show (if i = this then f (s.heap i) else s.heap i).objectName = "window"
  split_ifs
  · rw [hf]; exact hn
  · exact hn

/-- Creating a window from any window keeps the wiring. -/
theorem wired_created (env : Env) (this : Nat) (s : AppState) (h : Wired s) :
    Wired (afterConfigure this s.nextId (afterNew env s)) := by
  have hfresh : s.nextId ∉ s.topLevelWidgets := fun hmem =>
    Nat.lt_irrefl _ (h.fresh _ hmem)
  have hnamed : ∀ g ∈ s.topLevelWidgets ++ [s.nextId],
      ((afterNew env s).heap g).objectName = "window" := by
    intro g hg
    rcases List.mem_append.mp hg with hg | hg
    · have hne : g ≠ s.nextId := fun he => hfresh (he ▸ hg)
      simpa [afterNew, hne] using h.named g hg
    · have he : g = s.nextId := List.mem_singleton.mp hg
      simp [afterNew, he, constructed]
  have hnodup : (s.topLevelWidgets ++ [s.nextId]).Nodup := by
    rw [List.nodup_append]
    refine ⟨h.nodup, List.nodup_singleton _, ?_⟩
    intro a ha hb
    have he : a = s.nextId := List.mem_singleton.mp hb
    exact hfresh (he ▸ ha)
  have hold : ∀ a b, (a = s.nextId ∨ b = s.nextId) → s.settingsLinks.count (a, b) = 0 := by
    intro a b hab
    apply List.count_eq_zero_of_not_mem
    intro hmem
    have := h.bound (a, b) hmem
    rcases hab with hab | hab <;> simp [hab] at this
  have hcount : ∀ a b,
      (s.settingsLinks ++
        newLinks (afterNew env s).heap s.nextId (s.topLevelWidgets ++ [s.nextId])).count (a, b) =
      s.settingsLinks.count (a, b) +
        ((if b = s.nextId then (s.topLevelWidgets ++ [s.nextId]).count a else 0) +
         (if a = s.nextId then (s.topLevelWidgets ++ [s.nextId]).count b else 0)) := by
    intro a b
    rw [List.count_append, count_newLinks _ _ _ _ _ hnamed]
  refine ⟨hnodup, ?_, ?_, ?_, ?_, ?_, ?_⟩
  · intro i hi
    show i < s.nextId + 1
    rcases List.mem_append.mp hi with hi | hi
    · exact Nat.lt_succ_of_lt (h.fresh i hi)
    · rw [List.mem_singleton.mp hi]; exact Nat.lt_succ_self _
  · show 0 < s.nextId + 1
    exact Nat.succ_pos _
  · intro i hi
    have := hnamed i hi
    by_cases hin : i = s.nextId
    · simpa [afterConfigure, Window.resize, Window.move, hin] using (hin ▸ this)
    · simpa [afterConfigure, hin] using this
  · intro p hp
    show p.1 < s.nextId + 1 ∧ p.2 < s.nextId + 1
    rcases List.mem_append.mp hp with hp | hp
    · have := h.bound p hp
      exact ⟨Nat.lt_succ_of_lt this.1, Nat.lt_succ_of_lt this.2⟩
    · have hb := mem_newLinks _ _ _ _ hp
      have hlt : ∀ x, (x = s.nextId ∨ x ∈ s.topLevelWidgets ++ [s.nextId]) →
          x < s.nextId + 1 := by
        intro x hx
        rcases hx with hx | hx
        · rw [hx]; exact Nat.lt_succ_self _
        · rcases List.mem_append.mp hx with hx | hx
          · exact Nat.lt_succ_of_lt (h.fresh x hx)
          · rw [List.mem_singleton.mp hx]; exact Nat.lt_succ_self _
      exact ⟨hlt _ hb.1, hlt _ hb.2⟩
  · intro a ha b hb hab
    show (s.settingsLinks ++ newLinks (afterNew env s).heap s.nextId
      (s.topLevelWidgets ++ [s.nextId])).count (a, b) = 1
    rw [hcount]
    have hca := List.count_eq_one_of_mem hnodup ha
    have hcb := List.count_eq_one_of_mem hnodup hb
    by_cases han : a = s.nextId
    · have hbn : b ≠ s.nextId := fun hbn => hab (han.trans hbn.symm)
      rw [hold a b (Or.inl han), if_neg hbn, if_pos han, hcb]
    · by_cases hbn : b = s.nextId
      · rw [hold a b (Or.inr hbn), if_pos hbn, if_neg han, hca]
      · have ha2 : a ∈ s.topLevelWidgets := by
          rcases List.mem_append.mp ha with ha | ha
          · exact ha
          · exact absurd (List.mem_singleton.mp ha) han
        have hb2 : b ∈ s.topLevelWidgets := by
          rcases List.mem_append.mp hb with hb | hb
          · exact hb
          · exact absurd (List.mem_singleton.mp hb) hbn
        rw [if_neg hbn, if_neg han, h.cross a ha2 b hb2 hab]
  · intro a ha
    show (s.settingsLinks ++ newLinks (afterNew env s).heap s.nextId
      (s.topLevelWidgets ++ [s.nextId])).count (a, a) = if a = 0 then 0 else 2
    rw [hcount]
    have hca := List.count_eq_one_of_mem hnodup ha
    by_cases han : a = s.nextId
    · have hne : a ≠ 0 := by
        have := h.started
        omega
      rw [hold a a (Or.inl han), if_pos han, hca, if_neg hne]
    · have ha2 : a ∈ s.topLevelWidgets := by
        rcases List.mem_append.mp ha with ha | ha
        · exact ha
        · exact absurd (List.mem_singleton.mp ha) han
      rw [if_neg han, h.self a ha2]
      simp

/-- The branch of `openFile` that loads into the calling window. -/
theorem openFile_same (env : Env) (this : Nat) (path : String) (s : AppState)
    (hp : path ≠ "") (ht : (s.heap this).editor.documentTitle = "")
    (hm : (s.heap this).editor.modified = false) :
    openFile env this path s =
      .ok (s.modify this fun w => { w with editor := env.readFile w.editor path }) := by
  simp [openFile, hp, ht, hm]

/-- The branch of `openFile` that makes a new window. -/
theorem openFile_other (env : Env) (this : Nat) (path : String) (s : AppState)
    (hp : path ≠ "")
    (hc : ¬ ((s.heap this).editor.documentTitle = "" ∧ (s.heap this).editor.modified = false)) :
    openFile env this path s =
      .ok ((afterConfigure this s.nextId (afterNew env s)).modify s.nextId fun w =>
        { w with editor := env.readFile w.editor path }) := by
  have hc2 : ¬ ((s.heap this).editor.documentTitle = "" ∧
      ¬ (s.heap this).editor.modified = true) := by
    simpa using hc
  simp only [openFile, hp, if_false, hc2, Window.new_eq, Outcome.bind, configureWindow_eq]

/-- Every reachable session is wired. -/
theorem wired_of_reachable (env : Env) (s : AppState) (h : Reachable env s) : Wired s := by
  induction h with
  | init st => exact wired_initial env st
  | newFile this _ _ hstep ih =>
    rw [newFile_eq] at hstep
    cases hstep
    exact wired_created env this _ ih
  | @openFile s s' this path _ _ hp hstep ih =>
    by_cases hc : (s.heap this).editor.documentTitle = "" ∧
        (s.heap this).editor.modified = false
    · rw [openFile_same env this path s hp hc.1 hc.2] at hstep
      cases hstep
      exact wired_modify _ _ _ (fun _ => rfl) ih
    · rw [openFile_other env this path s hp hc] at hstep
      cases hstep
      exact wired_modify _ _ _ (fun _ => rfl) (wired_created env this _ ih)
  | user this f _ hf ih => exact wired_modify _ _ _ hf ih

/-! ## Wiring of every pair of windows -/

/-- The sample session with two windows is reachable. -/
theorem reachable_demoTwo : Reachable demoEnv demoTwo := by
  have hstep : newFile demoEnv 0 demoOne = .ok demoTwo := by
    rw [demoTwo, newFile_eq]
    rfl
  exact Reachable.newFile 0 (Reachable.init _) (by decide) hstep

/-- Claim C10. In every session reached from a single first window by window
creations from any live window, every ordered pair of distinct live windows has
a connection from the `settingsChanged` signal of the first to the
`updateSettings` signal of the second. -/
theorem wiring_invariant (env : Env) (s : AppState) (h : Reachable env s) (a b : Nat)
    (ha : a ∈ s.topLevelWidgets) (hb : b ∈ s.topLevelWidgets) (hab : a ≠ b) :
    (a, b) ∈ s.settingsLinks := by
  have hw := wired_of_reachable env s h
  have hc := hw.cross a ha b hb hab
  apply List.count_pos_iff.mp
  rw [hc]
  exact Nat.one_pos

/-- The wiring invariant applied to the sample session of two windows. -/
theorem wiring_invariant_witness :
    Reachable demoEnv demoTwo ∧ 0 ∈ demoTwo.topLevelWidgets ∧ 1 ∈ demoTwo.topLevelWidgets ∧
      (0 : Nat) ≠ 1 ∧ (0, 1) ∈ demoTwo.settingsLinks :=
  ⟨reachable_demoTwo, by decide, by decide, by decide,
    wiring_invariant demoEnv demoTwo reachable_demoTwo 0 1 (by decide) (by decide) (by decide)⟩

/-! ## Settings setters and the broadcast -/

/-- The receivers of a broadcast, counted: one delivery per connection. -/
theorem count_receivers (links : List (Nat × Nat)) (a r : Nat) :
    ((links.filter fun p => p.1 = a).map fun p => p.2).count r = links.count (a, r) := by
  induction links with
  | nil => rfl
  | cons p links ih =>
    obtain ⟨x, y⟩ := p
    by_cases hx : x = a
    · by_cases hy : y = r
      · simp [List.filter_cons, List.count_cons, hx, hy, ih]
      · simp [List.filter_cons, List.count_cons, hx, hy, ih]
    · simp [List.filter_cons, List.count_cons, hx, ih]

/-- What `syncSettings` emits, counted per window. -/
theorem received_syncSettings (this : Nat) (s0 s : AppState) (he : s.emitted = s0.emitted)
    (r : Nat) :
    received s0 (syncSettings this s) r =
      (if r = this then 1 else 0) + s.settingsLinks.count (this, r) := by
  have hem : (syncSettings this s).emitted =
      s0.emitted ++ (this :: (s.settingsLinks.filter fun p => p.1 = this).map fun p => p.2) := by
    simp [syncSettings, he]
  unfold received
  rw [hem, List.drop_left, List.count_cons, count_receivers]
  by_cases hr : r = this
  · simp [hr]; omega
  · have hr2 : ¬ this = r := fun h => hr h.symm
    simp [hr, hr2]

/-- Every setter call with a valid argument returns the state `syncSettings`
makes of the store with the key written. -/
theorem run_eq (c : SettingCall) (this : Nat) (s : AppState) (hc : c.valid) :
    c.run this s =
      .ok (syncSettings this { s with settings := s.settings.setValue c.key c.stored }) := by
  cases c <;>
    first
    | rfl
    | (simp only [SettingCall.valid] at hc
       simp [SettingCall.run, setColorscheme, setIconTheme, hc, SettingCall.key,
         SettingCall.stored])

/-- The deliveries of a setter, counted. In every state reached by window
creations, a settings setter called on a live window with a valid argument
returns, writes its key to the settings store, only appends to the emissions,
and makes every other live window receive `updateSettings` exactly once. The
calling window receives it once when it is the first window; a window that
went through `configureWindow` carries two connections to itself and receives
it once from `syncSettings` and twice more through them. -/
theorem setter_broadcast (env : Env) (s : AppState) (h : Reachable env s) (this : Nat)
    (hthis : this ∈ s.topLevelWidgets) (c : SettingCall) (hc : c.valid) :
    ∃ s', c.run this s = .ok s' ∧
      s'.settings c.key = some c.stored ∧
      s.emitted <+: s'.emitted ∧
      (∀ r ∈ s.topLevelWidgets, r ≠ this → received s s' r = 1) ∧
      received s s' this = if this = 0 then 1 else 3 := by
  have hw := wired_of_reachable env s h
  have hrec := received_syncSettings this s
    { s with settings := s.settings.setValue c.key c.stored } rfl
  refine ⟨_, run_eq c this s hc, ?_, ?_, ?_, ?_⟩
  · simp [syncSettings, QSettings.setValue]
  · exact ⟨_, by simp [syncSettings]; rfl⟩
  · intro r hr hne
    rw [hrec r]
    have hcross := hw.cross this hthis r hr (fun he => hne he.symm)
    simp only [hne, if_false]
    simpa using hcross
  · rw [hrec this]
    have hself := hw.self this hthis
    simp only [if_true]
    by_cases h0 : this = 0
    · simp only [h0, if_true] at hself ⊢
      omega
    · simp only [h0, if_false] at hself ⊢
      omega

/-- The delivery count applied to the second window of the sample session. -/
theorem setter_broadcast_witness :
    Reachable demoEnv demoTwo ∧ 1 ∈ demoTwo.topLevelWidgets ∧
      (SettingCall.wordWrap true).valid ∧
      ∃ s', (SettingCall.wordWrap true).run 1 demoTwo = .ok s' ∧
        s'.settings (SettingCall.wordWrap true).key = some (SettingCall.wordWrap true).stored ∧
        demoTwo.emitted <+: s'.emitted ∧
        (∀ r ∈ demoTwo.topLevelWidgets, r ≠ 1 → received demoTwo s' r = 1) ∧
        received demoTwo s' 1 = if 1 = 0 then 1 else 3 :=
  ⟨reachable_demoTwo, by decide, trivial,
    setter_broadcast demoEnv demoTwo reachable_demoTwo 1 (by decide)
      (SettingCall.wordWrap true) trivial⟩

/-- Claim C6 against the code. In the reachable sample session of two
windows, the loop of `configureWindow` has connected the second window to
itself twice (the first window has no connection to itself), so `setWordWrap`
on the second window, a live window, writes the key, reaches the other window
exactly once, but makes the second window itself receive `updateSettings` three
times and not once; the same setter on the first window makes that window
receive it exactly once. -/
theorem setter_self_thrice :
    Reachable demoEnv demoTwo ∧ 1 ∈ demoTwo.topLevelWidgets ∧
      demoTwo.settingsLinks.count (1, 1) = 2 ∧
      demoTwo.settingsLinks.count (0, 0) = 0 ∧
      (setWordWrap 1 true demoTwo).settings "wordwrap-enabled" = some (.bool true) ∧
      received demoTwo (setWordWrap 1 true demoTwo) 0 = 1 ∧
      received demoTwo (setWordWrap 1 true demoTwo) 1 = 3 ∧
      ¬ received demoTwo (setWordWrap 1 true demoTwo) 1 = 1 ∧
      received demoTwo (setWordWrap 0 true demoTwo) 0 = 1 :=
  ⟨reachable_demoTwo, by decide, by decide, by decide, by decide, by decide, by decide,
    by decide, by decide⟩

/-! ## Placement of a new window -/

/-- Within the range of `int` the addition is the mathematical one. -/
theorem intAdd_eq (a b : Int) (hlo : -2147483648 ≤ a + b) (hhi : a + b ≤ 2147483647) :
    intAdd a b = a + b := by
  unfold intAdd
  omega

/-- Past the largest `int` the addition wraps to the negative side. -/
theorem intAdd_wraps : intAdd 2147483637 45 = -2147483614 := by
  decide

/-- Claim C3. For a non-empty path and a live window of a session whose live
handles are all allocated: on an untitled, unmodified document `openFile`
returns, loads the path into the window's own editor, and creates no window
(every other window object is untouched); otherwise it returns, creates exactly
one window, with a fresh handle, loads the path into the editor of that new
window, and leaves every earlier window object, the calling one included,
exactly as it was. -/
theorem openFile_dispatch (env : Env) (this : Nat) (path : String) (s : AppState)
    (hp : path ≠ "") (hlive : this ∈ s.topLevelWidgets)
    (hfresh : ∀ i ∈ s.topLevelWidgets, i < s.nextId) :
    ((s.heap this).editor.documentTitle = "" ∧ (s.heap this).editor.modified = false →
      ∃ s', openFile env this path s = .ok s' ∧
        (s'.heap this).editor = env.readFile (s.heap this).editor path ∧
        s'.topLevelWidgets = s.topLevelWidgets ∧ s'.nextId = s.nextId ∧
        ∀ i, i ≠ this → s'.heap i = s.heap i) ∧
    (¬ ((s.heap this).editor.documentTitle = "" ∧ (s.heap this).editor.modified = false) →
      ∃ s', openFile env this path s = .ok s' ∧
        s'.topLevelWidgets = s.topLevelWidgets ++ [s.nextId] ∧
        s.nextId ∉ s.topLevelWidgets ∧
        s'.nextId = s.nextId + 1 ∧
        (s'.heap s.nextId).editor = env.readFile env.newEditor path ∧
        (s'.heap this).editor = (s.heap this).editor ∧
        ∀ i, i ≠ s.nextId → s'.heap i = s.heap i) := by
  have hnew : s.nextId ∉ s.topLevelWidgets := fun hmem => Nat.lt_irrefl _ (hfresh _ hmem)
  have hne : this ≠ s.nextId := fun he => hnew (he ▸ hlive)
  constructor
  · intro hc
    refine ⟨_, openFile_same env this path s hp hc.1 hc.2, ?_, rfl, rfl, ?_⟩
    · simp [AppState.modify]
    · intro i hi
      simp [AppState.modify, hi]
  · intro hc
    refine ⟨_, openFile_other env this path s hp hc, rfl, hnew, rfl, ?_, ?_, ?_⟩
    · simp [AppState.modify, afterConfigure, afterNew, constructed, Window.resize, Window.move]
    · simp [AppState.modify, afterConfigure, afterNew, hne]
    · intro i hi
      simp [AppState.modify, afterConfigure, afterNew, hi]

/-- The dispatch theorem applied to the first window of the sample session. -/
theorem openFile_dispatch_witness :
    ("a.txt" ≠ "") ∧ 0 ∈ demoOne.topLevelWidgets ∧
    (∀ i ∈ demoOne.topLevelWidgets, i < demoOne.nextId) ∧
    ((demoOne.heap 0).editor.documentTitle = "" ∧ (demoOne.heap 0).editor.modified = false) ∧
    ((demoOne.heap 0).editor.documentTitle = "" ∧ (demoOne.heap 0).editor.modified = false →
      ∃ s', openFile demoEnv 0 "a.txt" demoOne = .ok s' ∧
        (s'.heap 0).editor = demoEnv.readFile (demoOne.heap 0).editor "a.txt" ∧
        s'.topLevelWidgets = demoOne.topLevelWidgets ∧ s'.nextId = demoOne.nextId ∧
        ∀ i, i ≠ 0 → s'.heap i = demoOne.heap i) :=
  ⟨by decide, by decide, by decide, by decide,
    (openFile_dispatch demoEnv 0 "a.txt" demoOne (by decide) (by decide) (by decide)).1⟩

/-- Claim C8. For every state and every calling window, `openFile` on the empty
path fails its assertion in the very state it was called in: nothing was read
into an editor, no window was created and no settings key was written. -/
theorem openFile_empty_path (env : Env) (this : Nat) (s : AppState) :
    openFile env this "" s = .assertFailed s ∧
    (openFile env this "" s).state.heap = s.heap ∧
    (openFile env this "" s).state.topLevelWidgets = s.topLevelWidgets ∧
    (openFile env this "" s).state.nextId = s.nextId ∧
    (openFile env this "" s).state.settings = s.settings := by
  have h : openFile env this "" s = .assertFailed s := by simp [openFile]
  rw [h]
  exact ⟨rfl, rfl, rfl, rfl, rfl⟩

/-- On a non-empty path `openFile` returns. -/
theorem openFile_returns (env : Env) (this : Nat) (path : String) (s : AppState)
    (hp : path ≠ "") : ∃ s', openFile env this path s = .ok s' := by
  by_cases hc : (s.heap this).editor.documentTitle = "" ∧
      (s.heap this).editor.modified = false
  · exact ⟨_, openFile_same env this path s hp hc.1 hc.2⟩
  · exact ⟨_, openFile_other env this path s hp hc⟩

/-- The loop of `open` is `openFile` on the non-empty entries, in order. -/
theorem open_eq_openEach (env : Env) (this : Nat) (files : List String) (s : AppState) :
    «open» env this files s = openEach env this (files.filter fun f => f ≠ "") s := by
  induction files generalizing s with
  | nil => rfl
  | cons f rest ih =>
    by_cases hf : f = ""
    · simp [«open», hf, ih]
    · simp only [«open», hf, not_false_eq_true, if_true, List.filter_cons, decide_True,
        openEach, ne_eq]
      congr 1
      funext s1
      exact ih s1

/-- Claim C7. For every list of selected paths, `open` does what calling
`openFile` on the non-empty entries of the list, once each and in list order,
does, and it returns; on the empty list and on a list of empty strings only it
returns the state unchanged. -/
theorem open_nonempty_in_order (env : Env) (this : Nat) (files : List String)
    (s : AppState) :
    «open» env this files s = openEach env this (files.filter fun f => f ≠ "") s ∧
    (∃ s', «open» env this files s = .ok s') ∧
    «open» env this [] s = .ok s ∧
    ∀ k : Nat, «open» env this (List.replicate k "") s = .ok s := by
  refine ⟨open_eq_openEach env this files s, ?_, rfl, ?_⟩
  · induction files generalizing s with
    | nil => exact ⟨s, rfl⟩
    | cons f rest ih =>
      by_cases hf : f = ""
      · obtain ⟨s', hs'⟩ := ih s
        exact ⟨s', by simp [«open», hf, hs']⟩
      · obtain ⟨s1, hs1⟩ := openFile_returns env this f s hf
        obtain ⟨s', hs'⟩ := ih s1
        exact ⟨s', by simp [«open», hf, hs1, Outcome.bind, hs']⟩
  · intro k
    induction k with
    | zero => rfl
    | succ k ih => simpa [List.replicate_succ, «open»] using ih

/-! ## The close guard -/

/-- Claim C5. For every window, `closeEvent` accepts the close event exactly
when `maybeSave` of its editor reports that it is safe to proceed, and
`closeEvent` itself changes nothing of the document: the window object ends as
it was with the editor as `maybeSave` left it, so the title, the modified flag
and the read-only flag are those `maybeSave` left, and every other window
object is untouched. For a live window that deletes on close, as the
constructor sets it, the window is destroyed by the close request exactly when
the event is accepted; when the user cancels it stays among the live windows,
which are then the same as before. -/
theorem closeEvent_guard (env : Env) (this : Nat) (s : AppState)
    (hlive : this ∈ s.topLevelWidgets) (hdel : (s.heap this).deleteOnClose = true) :
    ((closeEvent env this s).2 = true ↔ (env.maybeSave (s.heap this).editor).1 = true) ∧
    (closeEvent env this s).1.heap this =
      { s.heap this with editor := (env.maybeSave (s.heap this).editor).2 } ∧
    ((closeEvent env this s).1.heap this).editor.documentTitle =
      (env.maybeSave (s.heap this).editor).2.documentTitle ∧
    ((closeEvent env this s).1.heap this).editor.modified =
      (env.maybeSave (s.heap this).editor).2.modified ∧
    ((closeEvent env this s).1.heap this).editor.readOnly =
      (env.maybeSave (s.heap this).editor).2.readOnly ∧
    (∀ i, i ≠ this → (closeEvent env this s).1.heap i = s.heap i) ∧
    (this ∉ (close env this s).topLevelWidgets ↔
      (env.maybeSave (s.heap this).editor).1 = true) ∧
    ((env.maybeSave (s.heap this).editor).1 = false →
      (closeEvent env this s).2 = false ∧
      (close env this s).topLevelWidgets = s.topLevelWidgets ∧
      this ∈ (close env this s).topLevelWidgets) := by
  have hheap : (closeEvent env this s).1.heap this =
      { s.heap this with editor := (env.maybeSave (s.heap this).editor).2 } := by
    simp [closeEvent, AppState.modify]
  have hdel2 : ((closeEvent env this s).1.heap this).deleteOnClose = true := by
    rw [hheap]; exact hdel
  have hacc : (closeEvent env this s).2 = (env.maybeSave (s.heap this).editor).1 := rfl
  have hlist : (closeEvent env this s).1.topLevelWidgets = s.topLevelWidgets := rfl
  refine ⟨by rw [hacc], hheap, by rw [hheap], by rw [hheap], by rw [hheap], ?_, ?_, ?_⟩
  · intro i hi
    simp [closeEvent, AppState.modify, hi]
  · by_cases hm : (env.maybeSave (s.heap this).editor).1 = true
    · have hcl : (close env this s).topLevelWidgets =
          s.topLevelWidgets.filter fun i => i ≠ this := by
        unfold close
        simp only [hacc, hm, hdel2, and_self, if_true, hlist]
      rw [hcl]
      simp [hm]
    · have hcl : (close env this s).topLevelWidgets = s.topLevelWidgets := by
        unfold close
        simp [hacc, hm, hlist]
      rw [hcl]
      simp [hm, hlive]
  · intro hm
    have hcl : (close env this s).topLevelWidgets = s.topLevelWidgets := by
      unfold close
      simp [hacc, hm, hlist]
    refine ⟨by rw [hacc, hm], hcl, ?_⟩
    rw [hcl]; exact hlive

/-- The close guard applied to the sample window with unsaved typing. -/
theorem closeEvent_guard_witness :
    0 ∈ demoEdited.topLevelWidgets ∧ (demoEdited.heap 0).deleteOnClose = true ∧
    (demoEnv.maybeSave (demoEdited.heap 0).editor).1 = false ∧
    (0 ∉ (close demoEnv 0 demoEdited).topLevelWidgets ↔
      (demoEnv.maybeSave (demoEdited.heap 0).editor).1 = true) ∧
    0 ∈ (close demoEnv 0 demoEdited).topLevelWidgets :=
  ⟨by decide, by decide, by decide,
    (closeEvent_guard demoEnv 0 demoEdited (by decide) (by decide)).2.2.2.2.2.2.1,
    ((closeEvent_guard demoEnv 0 demoEdited (by decide) (by decide)).2.2.2.2.2.2.2
      (by decide)).2.2⟩

/-! ## Geometry persisted on close -/

/-- Claim C4 against the code. Closing the maximized sample window, whose
store holds none of the three geometry keys, writes the maximized extent
1920 by 1080 under `size` and (0, 0) under `position` and leaves `maximized`
unwritten, while `saveWindowState` on the same window writes `maximized` and
leaves `size` and `position` alone. -/
theorem closeEvent_maximized :
    (demoMaximized.heap 0).maximized = true ∧
    demoMaximized.settings "size" = none ∧
    demoMaximized.settings "position" = none ∧
    demoMaximized.settings "maximized" = none ∧
    (closeEvent demoEnv 0 demoMaximized).1.settings "size" = some (.size ⟨1920, 1080⟩) ∧
    (closeEvent demoEnv 0 demoMaximized).1.settings "position" = some (.point ⟨0, 0⟩) ∧
    (closeEvent demoEnv 0 demoMaximized).1.settings "maximized" = none ∧
    (saveWindowState 0 demoMaximized).settings "size" = none ∧
    (saveWindowState 0 demoMaximized).settings "position" = none ∧
    (saveWindowState 0 demoMaximized).settings "maximized" = some (.bool true) := by
  decide

/-- What `closeEvent` persists in general: the stored `size` and `position` are
the size and position the window had when the close was requested, whether it
is maximized or not, and the `maximized` key keeps the value it had. -/
theorem closeEvent_geometry (env : Env) (this : Nat) (s : AppState) :
    (closeEvent env this s).1.settings "size" = some (.size (s.heap this).size) ∧
    (closeEvent env this s).1.settings "position" = some (.point (s.heap this).pos) ∧
    (closeEvent env this s).1.settings "maximized" = s.settings "maximized" := by
  simp [closeEvent, AppState.modify, QSettings.setValue]

end Thunderpad
